import Mathlib

/-!
Verification of the VitalConnect AI-service core (Python) against its
natural-language specification, as a shallow embedding in Lean 4.

Embedded modules (paths relative to the service root `app/`):
* `middleware/permissions.py` — role/permission matrix and `check_permission`.
* `middleware/tenant.py`      — `create_tenant_context` (super-admin override).
* `tools/base.py`             — `BaseTool.run` confirmation/execution protocol.
* `routers/chat.py`           — `confirm_action` endpoint state machine.
* `rag/ingestion.py`          — `_chunk_text`, `_find_sentence_boundary`,
  `create_nodes_from_text`.
* `rag/query_engine.py`       — `_retrieve_context` threshold filtering.

Modelling conventions: Python strings become `List Char` where index
arithmetic matters (chunking) and `String` elsewhere; UUIDs become `Nat`
drawn from a monotone generator (a faithful abstraction of freshness);
similarity scores become `ℚ` (only order comparisons occur in the code);
Python exceptions become `Except` values; the database table behind the
audit repository becomes an explicit list of records threaded through the
operations.
-/

namespace VitalConnect

/-! ## `app/middleware/permissions.py` -/

namespace Permissions

/-- The `Role` enum values: `admin`, `gestor`, `operador`, `medico`.
`Role(role)` in Python succeeds exactly when `role` is one of these. -/
def ROLE_VALUES : List String := ["admin", "gestor", "operador", "medico"]

/-- `PERMISSION_MATRIX`: tool name to the set (here: list) of allowed roles,
transcribed entry by entry from the source dict. -/
def PERMISSION_MATRIX : List (String × List String) :=
  [ ("list_occurrences",         ["admin", "gestor", "operador", "medico"]),
    ("get_occurrence_details",   ["admin", "gestor", "operador", "medico"]),
    ("search_documentation",     ["admin", "gestor", "operador", "medico"]),
    ("update_occurrence_status", ["admin", "gestor", "operador"]),
    ("send_team_notification",   ["admin", "gestor"]),
    ("generate_report",          ["admin", "gestor"]) ]

/-- `PERMISSION_MATRIX.get(tool_name)` — `none` when the tool is absent. -/
def matrixLookup (tool_name : String) : Option (List String) :=
  (PERMISSION_MATRIX.find? (fun e => e.1 = tool_name)).map (fun e => e.2)

/-- `ROLE_HIERARCHY` with the `.get(role, 5)` default used by
`get_minimum_required_role`. -/
def ROLE_HIERARCHY (role : String) : Nat :=
  if role = "admin" then 4
  else if role = "gestor" then 3
  else if role = "operador" then 2
  else if role = "medico" then 1
  else 5

/-- `get_minimum_required_role(tool_name)`: scan the allowed roles keeping
the one with the lowest hierarchy level, starting from `(5, "admin")`;
unknown or unrestricted tools yield `"admin"`.  The Python loop runs over a
set, but because hierarchy levels of distinct roles are distinct the result
does not depend on iteration order; we iterate the list in matrix order. -/
def get_minimum_required_role (tool_name : String) : String :=
  let allowed_roles := (matrixLookup tool_name).getD []
  if allowed_roles = [] then "admin"
  else
    (allowed_roles.foldl
      (fun acc role =>
        let level := ROLE_HIERARCHY role
        if level < acc.1 then (level, role) else acc)
      (5, "admin")).2

/-- The fields of a raised `PermissionDeniedError` that the spec talks
about (the human-readable message is omitted). -/
structure PermissionDeniedError where
  required_role : Option String
  user_role : Option String
  tool_name : Option String
  deriving DecidableEq, Repr

/-- The allowed set `check_permission` tests against: the matrix entry,
with unknown tools defaulting to admin-only (`{Role.ADMIN}`).  These are
the first two statements of `check_permission`. -/
def allowedFor (tool_name : String) : List String :=
  match matrixLookup tool_name with
  | none => ["admin"]
  | some s => s

/-- `check_permission(role, tool_name)`: unknown tools default to the
allowed set `{admin}`; an unrecognized role (where `Role(role)` raises
`ValueError`) is denied with `required_role=None`; a recognized role
outside the allowed set is denied with
`required_role = get_minimum_required_role(tool_name)`. -/
def check_permission (role tool_name : String) :
    Except PermissionDeniedError Unit :=
  let allowed_roles := allowedFor tool_name
  if ¬ ROLE_VALUES.contains role then
    .error ⟨none, some role, some tool_name⟩
  else if ¬ allowed_roles.contains role then
    .error ⟨some (get_minimum_required_role tool_name), some role,
            some tool_name⟩
  else
    .ok ()

end Permissions

/-! ## `app/middleware/tenant.py` -/

namespace Tenant

/-- `UserClaims` fields consumed by `create_tenant_context`. -/
structure UserClaims where
  user_id : String
  email : String
  role : String
  tenant_id : String
  is_super_admin : Bool
  deriving DecidableEq, Repr

/-- `TenantContext` dataclass. -/
structure TenantContext where
  tenant_id : String
  is_super_admin : Bool
  effective_tenant_id : String
  deriving DecidableEq, Repr

/-- The two exceptions `create_tenant_context` can raise. -/
inductive TenantCtxError where
  | denied          -- TenantContextDeniedError
  | invalidTenantId -- InvalidTenantIdError
  deriving DecidableEq, Repr

/-- Python truthiness of the optional header string: `if header_tenant_id:`
is `False` both for `None` and for the empty string. -/
def headerTruthy : Option String → Bool
  | none => false
  | some s => s ≠ ""

/-- `create_tenant_context(user_claims, header_tenant_id)`.  `validate_uuid`
(Python's `uuid.UUID` parser) is an external collaborator and is passed in
as a boolean predicate. -/
def create_tenant_context (validate_uuid : String → Bool)
    (user_claims : UserClaims) (header_tenant_id : Option String) :
    Except TenantCtxError TenantContext :=
  if headerTruthy header_tenant_id then
    match header_tenant_id with
    | none => .ok ⟨user_claims.tenant_id, user_claims.is_super_admin,
                   user_claims.tenant_id⟩  -- unreachable: truthy ⇒ some
    | some s =>
      if ¬ user_claims.is_super_admin then .error .denied
      else if ¬ validate_uuid s then .error .invalidTenantId
      else .ok ⟨user_claims.tenant_id, user_claims.is_super_admin, s⟩
  else
    .ok ⟨user_claims.tenant_id, user_claims.is_super_admin,
         user_claims.tenant_id⟩

end Tenant

/-! ## `app/tools/base.py` — `BaseTool.run` -/

namespace Tools

open Permissions

/-- A Python dict with string keys and string-rendered values, used for
`ToolResult.data` and for tool parameters. -/
abbrev Dict := List (String × String)

/-- `ToolResult` dataclass.  `confirmation_action_id` holds the generated
UUID, modelled as a `Nat` from a monotone generator.
`confirmation_details` is the dict
`{"tool_name": ..., "parameters": ..., **get_confirmation_details(...)}`;
we keep the tool name, the parameters, and the subclass-provided extra
dict as separate components. -/
structure ToolResult where
  success : Bool
  data : Option Dict := none
  message : Option String := none
  confirmation_required : Bool := false
  confirmation_action_id : Option Nat := none
  confirmation_details : Option (String × Dict × Dict) := none
  execution_time_ms : Option Nat := none
  deriving DecidableEq, Repr

/-- The registration attributes of a tool subclass that `run` consults. -/
structure ToolSpec where
  name : String
  requires_confirmation : Bool
  deriving DecidableEq, Repr

/-- `ToolContext` fields consumed by `run` (the request context is flattened
to the three properties `user_id`, `tenant_id`, `role`). -/
structure ToolContext where
  user_id : String
  tenant_id : String
  role : String
  confirmation_received : Bool
  deriving DecidableEq, Repr

/-- Possible outcomes of a subclass `execute()` coroutine, as dispatched by
the `except` clauses of `run`: a normal `ToolResult`, a raised
`ToolPermissionError` (matched first, and re-raised), any other raised
`ToolError` (message, code, details), or an arbitrary other exception
(rendered message). -/
inductive ExecOutcome where
  | ok (r : ToolResult)
  | permError (required_role user_role tool_name : Option String)
  | toolError (message code : String) (details : Dict)
  | unexpected (message : String)
  deriving DecidableEq, Repr

/-- A `ToolPermissionError` escaping `run` (the only exception that does). -/
structure ToolPermissionFailure where
  required_role : Option String
  user_role : Option String
  tool_name : Option String
  deriving DecidableEq, Repr

instance {ε α : Type} [DecidableEq ε] [DecidableEq α] :
    DecidableEq (Except ε α) := fun x y =>
  match x, y with
  | .ok a, .ok b =>
      if h : a = b then isTrue (by rw [h])
      else isFalse (by intro hc; cases hc; exact h rfl)
  | .error a, .error b =>
      if h : a = b then isTrue (by rw [h])
      else isFalse (by intro hc; cases hc; exact h rfl)
  | .ok _, .error _ => isFalse (by intro hc; cases hc)
  | .error _, .ok _ => isFalse (by intro hc; cases hc)

/-- The instrumented result of one `run` call: the returned value or
escaped exception, whether `execute()` was invoked, and the state of the
action-id generator afterwards. -/
structure RunOutcome where
  result : Except ToolPermissionFailure ToolResult
  execCalled : Bool
  genOut : Nat
  deriving DecidableEq, Repr

/-- `BaseTool._request_confirmation(context, **kwargs)`: draws a fresh
action id, asks `get_confirmation_details` (abstracted as the pair
`confMessage` / `confExtra`, the `"message"` entry and the rest of the
subclass-provided dict) and returns a successful result flagged
`confirmation_required=true`.  `execution_time_ms` stays unset. -/
def request_confirmation (tool : ToolSpec) (params : Dict)
    (confMessage : String) (confExtra : Dict) (gen : Nat) : ToolResult :=
  { success := true
    message := some ("Esta acao requer confirmacao. " ++ confMessage)
    confirmation_required := true
    confirmation_action_id := some gen
    confirmation_details := some (tool.name, params, confExtra) }

/-- `BaseTool.run(context, **kwargs)`.

Instrumentation: `execCalled` records whether `execute()` was entered;
`execute` itself is passed in as its observable outcome (`ExecOutcome`);
`elapsedMs` stands for the wall-clock measurement; `gen` is the state of
the UUID generator (each fresh id is the current state, which is then
incremented — uuid4 collisions are ruled out by construction).

Control flow mirrors the source: permission check first (a raised
`ToolPermissionError` is re-raised by the first `except` clause);
then the confirmation gate, which returns without touching `execute()`;
otherwise `execute()` runs and its exceptions are converted:
`ToolError` to a `success=False` result with the error code in `data`,
anything else to a generic `success=False` result. -/
def run (tool : ToolSpec) (context : ToolContext) (params : Dict)
    (execute : ExecOutcome) (confMessage : String) (confExtra : Dict)
    (elapsedMs : Nat) (gen : Nat) : RunOutcome :=
  match check_permission context.role tool.name with
  | .error e =>
      -- `self.check_permission` wraps the denial into a
      -- `ToolPermissionError` carrying `tool_name=self.name`
      ⟨.error ⟨e.required_role, e.user_role, some tool.name⟩, false, gen⟩
  | .ok _ =>
    if tool.requires_confirmation ∧ ¬ context.confirmation_received then
      ⟨.ok (request_confirmation tool params confMessage confExtra gen),
       false, gen + 1⟩
    else
      match execute with
      | .ok r =>
          ⟨.ok { r with execution_time_ms := some elapsedMs }, true, gen⟩
      | .permError rr ur tn => ⟨.error ⟨rr, ur, tn⟩, true, gen⟩
      | .toolError msg code details =>
          ⟨.ok { success := false
                 message := some msg
                 data := some (("error_code", code) :: details)
                 execution_time_ms := some elapsedMs }, true, gen⟩
      | .unexpected msg =>
          ⟨.ok { success := false
                 message := some
                   "An unexpected error occurred while executing the tool."
                 data := some [("error", msg)]
                 execution_time_ms := some elapsedMs }, true, gen⟩

end Tools

/-! ## `app/routers/chat.py` — `confirm_action`, with the audit-log table
from `app/repository/audit_repo.py` / `app/models/audit_log.py` made
explicit. -/

namespace Confirm

/-- `ActionStatus` enum. -/
inductive ActionStatus where
  | pending
  | success
  | failed
  | cancelled
  deriving DecidableEq, Repr

/-- `Severity` enum. -/
inductive Severity where
  | info
  | warn
  | critical
  deriving DecidableEq, Repr

/-- `ActionType` enum. -/
inductive ActionType where
  | query
  | tool_execution
  | confirmation
  deriving DecidableEq, Repr

/-- One row of `ai_action_audit_log` (`AIActionAuditLog`), restricted to
the columns the confirmation flow reads or writes.  UUIDs are `Nat`. -/
structure AuditRecord where
  id : Nat
  tenant_id : Nat
  user_id : Nat
  conversation_id : Option Nat
  action_type : ActionType
  tool_name : Option String
  input_params : List (String × String)
  output_result : List (String × String)
  status : ActionStatus
  error_message : Option String
  severity : Severity
  deriving DecidableEq, Repr

/-- The audit-log table. -/
structure Store where
  recs : List AuditRecord
  deriving DecidableEq, Repr

/-- `BaseRepository.get_by_id(id, tenant_id)`: select by primary key with
the mandatory tenant filter. -/
def getById (st : Store) (id tenant_id : Nat) : Option AuditRecord :=
  st.recs.find? (fun r => r.id = id ∧ r.tenant_id = tenant_id)

/-- `AuditLogRepository.update_status(log_id, tenant_id, status, ...)`:
looks the row up with the tenant filter and, when found, overwrites
`status`, sets `output_result` only when one is supplied, and on an error
message also bumps `severity` to `WARN`.  (`execution_time_ms` is never
supplied on this path and is not modelled.)  Rows are keyed by unique ids,
so updating every matching row coincides with updating the found row.
`applyStatusUpdate` is the per-row update, `updateStatus` the repository
operation. -/
def applyStatusUpdate (log_id tenant_id : Nat) (status : ActionStatus)
    (output_result : Option (List (String × String)))
    (error_message : Option String) (r : AuditRecord) : AuditRecord :=
  if r.id = log_id ∧ r.tenant_id = tenant_id then
    { r with
      status := status
      output_result := match output_result with
        | some o => o
        | none => r.output_result
      error_message := match error_message with
        | some e => some e
        | none => r.error_message
      severity := match error_message with
        | some _ => .warn
        | none => r.severity }
  else r

def updateStatus (st : Store) (log_id tenant_id : Nat)
    (status : ActionStatus) (output_result : Option (List (String × String)))
    (error_message : Option String) : Store :=
  ⟨st.recs.map
    (applyStatusUpdate log_id tenant_id status output_result error_message)⟩

/-- The row built by `AIActionAuditLog.create_confirmation_log`: an
`ai.confirmation` entry whose status is `SUCCESS` when confirmed and
`CANCELLED` otherwise; the database-generated primary key is modelled by
the monotone generator value `gen`. -/
def confLogRecord (gen : Nat) (tenant_id user_id : Nat)
    (conversation_id : Option Nat) (tool_name : Option String)
    (input_params : List (String × String)) (confirmed : Bool) :
    AuditRecord :=
  { id := gen
    tenant_id := tenant_id
    user_id := user_id
    conversation_id := conversation_id
    action_type := .confirmation
    tool_name := tool_name
    input_params := input_params
    output_result := [("confirmed", if confirmed then "true" else "false")]
    status := if confirmed then .success else .cancelled
    error_message := none
    severity := .info }

/-- `AuditLogRepository.create_confirmation_log` + `BaseRepository.create`:
appends the fresh row and advances the id generator. -/
def createConfirmationLog (st : Store) (gen : Nat)
    (tenant_id user_id : Nat) (conversation_id : Option Nat)
    (tool_name : Option String) (input_params : List (String × String))
    (confirmed : Bool) : Store × Nat :=
  (⟨st.recs ++ [confLogRecord gen tenant_id user_id conversation_id
      tool_name input_params confirmed]⟩, gen + 1)

/-- The request context of the caller of `POST /confirm/{action_id}`. -/
structure ReqCtx where
  user_id : Nat
  tenant_id : Nat
  role : String
  deriving DecidableEq, Repr

/-- The three `HTTPException`s the endpoint raises after a well-formed
action id: 404 `action_not_found`, 400 `action_not_pending`
("Esta acao ja foi processada"), 403 `unauthorized`. -/
inductive ConfirmError where
  | notFound     -- 404 "action_not_found"
  | notPending   -- 400 "action_not_pending"
  | unauthorized -- 403 "unauthorized"
  deriving DecidableEq, Repr

/-- `ConfirmResponse` body. -/
structure ConfirmResponse where
  action_id : Nat
  confirmed : Bool
  result : Option (List (String × String))
  message : String
  deriving DecidableEq, Repr

/-- The instrumented outcome of one `confirm_action` call: response or
error, the table and id generator afterwards, and whether
`_execute_confirmed_action` was invoked. -/
structure ConfirmOutcome where
  result : Except ConfirmError ConfirmResponse
  store : Store
  genOut : Nat
  executed : Bool
  deriving DecidableEq, Repr

/-- `confirm_action(action_id, request, request_ctx, db)` for a
syntactically valid action id.

`execOutcome` stands for the awaited `_execute_confirmed_action` call:
`.ok result` is its return value, `.error msg` a raised exception caught
by the surrounding `try` (as written the helper is a placeholder that
always returns, but the endpoint handles both).  `executed` records
whether that call was entered at all.

Flow as in the source: tenant-filtered lookup (404 when absent), status
gate (400 unless `pending`), ownership gate (403 unless the caller is the
creating user), confirmation audit row, then either execution with a
status update to `SUCCESS`/`FAILED`, or a status update to `CANCELLED`. -/
def confirm_action (st : Store) (gen : Nat) (action_id : Nat)
    (confirmed : Bool) (ctx : ReqCtx)
    (execOutcome : Except String (List (String × String))) :
    ConfirmOutcome :=
  match getById st action_id ctx.tenant_id with
  | none => ⟨.error .notFound, st, gen, false⟩
  | some pending_action =>
    if pending_action.status ≠ .pending then
      ⟨.error .notPending, st, gen, false⟩
    else if pending_action.user_id ≠ ctx.user_id then
      ⟨.error .unauthorized, st, gen, false⟩
    else
      let step := createConfirmationLog st gen ctx.tenant_id
        ctx.user_id pending_action.conversation_id
        pending_action.tool_name pending_action.input_params confirmed
      let st1 := step.1
      let gen1 := step.2
      if confirmed then
        match execOutcome with
        | .ok result =>
          let st2 := updateStatus st1 action_id ctx.tenant_id .success
            (some result) none
          ⟨.ok ⟨action_id, true, some result, "Acao executada com sucesso"⟩,
           st2, gen1, true⟩
        | .error e =>
          let st2 := updateStatus st1 action_id ctx.tenant_id .failed
            none (some e)
          ⟨.ok ⟨action_id, true, none, "Erro ao executar acao: " ++ e⟩,
           st2, gen1, true⟩
      else
        let st2 := updateStatus st1 action_id ctx.tenant_id .cancelled
          none none
        ⟨.ok ⟨action_id, false, none, "Acao cancelada"⟩, st2, gen1, false⟩

/-- Well-formedness of the table relative to the id generator: every
existing primary key is below the next generated one, and primary keys
are unique. -/
def WFStore (st : Store) (gen : Nat) : Prop :=
  (∀ r ∈ st.recs, r.id < gen) ∧
  st.recs.Pairwise (fun a b => a.id ≠ b.id)

/-- Concrete sample data: one `pending` tool-execution row, id 1,
belonging to user 100 of tenant 10. -/
def samplePendingAction : AuditRecord where
  id := 1
  tenant_id := 10
  user_id := 100
  conversation_id := none
  action_type := .tool_execution
  tool_name := some "update_occurrence_status"
  input_params := []
  output_result := []
  status := .pending
  error_message := none
  severity := .warn

/-- Concrete sample table holding just `samplePendingAction`; the next
generated id is 2. -/
def sampleStore : Store := ⟨[samplePendingAction]⟩

end Confirm

/-! ## `app/rag/ingestion.py` — chunking and node creation.

Text is modelled as `List Char`; Python slices `text[a:b]`, `str.strip()`
and `str.rfind(c)` are given as explicit list functions. -/

namespace Rag

/-- A text. -/
abbrev Str := List Char

/-- The whitespace set of Python's `str.strip()` (ASCII part; the inputs
of interest contain no exotic Unicode spaces). -/
def isPySpace (c : Char) : Bool :=
  c = ' ' ∨ c = '\t' ∨ c = '\n' ∨ c = '\r' ∨
  c = Char.ofNat 11 ∨ c = Char.ofNat 12

/-- `str.strip()`. -/
def strip (s : Str) : Str :=
  ((s.dropWhile isPySpace).reverse.dropWhile isPySpace).reverse

/-- `text[a:b]` for `0 ≤ a ≤ b` (Python clamps at the text length, as
`drop`/`take` do). -/
def slice (s : Str) (a b : Nat) : Str :=
  (s.drop a).take (b - a)

/-- `s.rfind(c)`: index of the last occurrence of `c`, `none` for Python's
`-1` (an occurrence in the tail wins over one at the head). -/
def rfindChar (s : Str) (c : Char) : Option Nat :=
  match s with
  | [] => none
  | a :: rest =>
    match rfindChar rest c with
    | some p => some (p + 1)
    | none => if a = c then some 0 else none

/-- The `for marker in [...]` loops of `_find_sentence_boundary`: try the
markers in order and return the `rfind` hit of the first marker that
occurs at all. -/
def rfindFirst (s : Str) : List Char → Option Nat
  | [] => none
  | m :: ms =>
    match rfindChar s m with
    | some p => some p
    | none => rfindFirst s ms

/-- `DocumentIngestionPipeline._find_sentence_boundary(text, position)`:
search the 100-character window before `position` for, in priority order,
a sentence marker (`.`, `!`, `?`, newline — each via `rfind`, first marker
with any hit winning), then a clause marker (`,`, `;`, `:`), then a
space; fall back to `position` itself.  `max(0, position-100)` is `Nat`
subtraction. -/
def find_sentence_boundary (text : Str) (position : Nat) : Nat :=
  let search_start := position - 100
  let search_text := slice text search_start position
  match rfindFirst search_text ['.', '!', '?', '\n'] with
  | some last_pos => search_start + last_pos + 1
  | none =>
    match rfindFirst search_text [',', ';', ':'] with
    | some last_pos => search_start + last_pos + 1
    | none =>
      match rfindChar search_text ' ' with
      | some last_space => search_start + last_space + 1
      | none => position

/-- One pass of the `while start < len(text)` loop of `_chunk_text`,
parameterized by the boundary function (the source uses
`find_sentence_boundary`; claim-side variants swap it out).  `fuel` bounds
the number of iterations: `none` means the loop had not terminated after
`fuel` passes — the Python loop has no such bound, so an input on which
every fuel yields `none` is an input on which the source loops forever. -/
def chunkLoopWith (boundaryFn : Str → Nat → Nat) (chunk_size overlap : Nat)
    (text : Str) : Nat → Nat → List Str → Option (List Str)
  | 0, _, _ => none
  | fuel + 1, start, chunks =>
    if start < text.length then
      let end0 := start + chunk_size
      let e :=
        if end0 < text.length then
          let boundary := boundaryFn text end0
          if boundary > start then boundary else end0
        else end0
      let chunk := strip (slice text start e)
      let chunks1 := if chunk = [] then chunks else chunks ++ [chunk]
      -- `start = end - overlap; if start < 0: start = 0` is Nat subtraction
      let start1 := e - overlap
      if start1 ≥ text.length then some chunks1
      else chunkLoopWith boundaryFn chunk_size overlap text fuel start1 chunks1
    else some chunks

/-- `DocumentIngestionPipeline._chunk_text(text)` with the pipeline's
`chunk_size`/`chunk_overlap` explicit, and an explicit iteration budget
(see `chunkLoopWith`). -/
def chunk_text (chunk_size overlap : Nat) (text0 : Str) (fuel : Nat) :
    Option (List Str) :=
  let text := strip text0
  if text.length ≤ chunk_size then some [text]
  else
    match chunkLoopWith find_sentence_boundary chunk_size overlap text
        fuel 0 [] with
    | some chunks => some (if chunks = [] then [text] else chunks)
    | none => none

/-- Claim-side reading of the boundary search, following the spec's words
"the nearest preceding sentence boundary (`.`, `!`, `?`, newline)": the
last position in the window holding ANY of the markers (not the last
occurrence of the first marker that occurs at all, which is what the
source computes). -/
def rfindAny (s : Str) (markers : List Char) : Option Nat :=
  match s with
  | [] => none
  | a :: rest =>
    match rfindAny rest markers with
    | some p => some (p + 1)
    | none => if markers.contains a then some 0 else none

/-- The boundary search as the spec describes it: nearest preceding
position among the sentence markers, failing that among the clause
markers, failing that the nearest space, failing that `position`. -/
def find_boundary_claim (text : Str) (position : Nat) : Nat :=
  let search_start := position - 100
  let search_text := slice text search_start position
  match rfindAny search_text ['.', '!', '?', '\n'] with
  | some last_pos => search_start + last_pos + 1
  | none =>
    match rfindAny search_text [',', ';', ':'] with
    | some last_pos => search_start + last_pos + 1
    | none =>
      match rfindChar search_text ' ' with
      | some last_space => search_start + last_space + 1
      | none => position

/-- Chunking as claim C8 words it: the source loop with the
nearest-among-markers boundary rule. -/
def chunk_text_claim (chunk_size overlap : Nat) (text0 : Str)
    (fuel : Nat) : Option (List Str) :=
  let text := strip text0
  if text.length ≤ chunk_size then some [text]
  else
    match chunkLoopWith find_boundary_claim chunk_size overlap text
        fuel 0 [] with
    | some chunks => some (if chunks = [] then [text] else chunks)
    | none => none

/-- Amended reading of the boundary search, stated independently of the
source's `rfind` loop: among the markers in priority order, take the
first one that occurs anywhere in the window and use its last
occurrence. -/
def priorityLastHit (s : Str) (markers : List Char) : Option Nat :=
  (markers.find? (fun m => s.contains m)).bind (fun m => rfindChar s m)

/-- The boundary search as amended: priority tiers `.`-`!`-`?`-newline,
then `,`-`;`-`:`, then space, the winner within a tier being the first
marker in tier order that occurs at all, at its last occurrence. -/
def find_boundary_amended (text : Str) (position : Nat) : Nat :=
  let search_start := position - 100
  let search_text := slice text search_start position
  match priorityLastHit search_text ['.', '!', '?', '\n'] with
  | some last_pos => search_start + last_pos + 1
  | none =>
    match priorityLastHit search_text [',', ';', ':'] with
    | some last_pos => search_start + last_pos + 1
    | none =>
      match rfindChar search_text ' ' with
      | some last_space => search_start + last_space + 1
      | none => position

/-- Chunking as amended claim C8 describes it. -/
def chunk_text_amended (chunk_size overlap : Nat) (text0 : Str)
    (fuel : Nat) : Option (List Str) :=
  let text := strip text0
  if text.length ≤ chunk_size then some [text]
  else
    match chunkLoopWith find_boundary_amended chunk_size overlap text
        fuel 0 [] with
    | some chunks => some (if chunks = [] then [text] else chunks)
    | none => none

/-- A produced node: chunk text plus the `chunk_index` and `total_chunks`
metadata (the generated uuid and `indexed_at` timestamp are external
nondeterminism and are not modelled). -/
structure ChunkNode where
  text : Str
  chunk_index : Nat
  total_chunks : Nat
  deriving DecidableEq, Repr

/-- `DocumentIngestionError` raised by `create_nodes_from_text`
(`Missing required metadata field: <field>`). -/
inductive IngestionError where
  | missingField (field : String)
  deriving DecidableEq, Repr

/-- The `required_fields` list. -/
def required_fields : List String := ["tenant_id", "doc_type", "source_path"]

/-- `DocumentIngestionPipeline.create_nodes_from_text(content, metadata)`:
empty or whitespace-only content returns `[]` at once; only then are the
required metadata keys validated (first missing key raises); finally the
content is chunked and each chunk becomes a node.  `metadataKeys` is the
key set of the metadata dict; the outer `Option` is the iteration budget
of the chunking loop. -/
def create_nodes_from_text (chunk_size overlap fuel : Nat)
    (content : Str) (metadataKeys : List String) :
    Option (Except IngestionError (List ChunkNode)) :=
  if content = [] ∨ strip content = [] then
    some (.ok [])
  else
    match required_fields.find? (fun f => ¬ metadataKeys.contains f) with
    | some field => some (.error (.missingField field))
    | none =>
      match chunk_text chunk_size overlap content fuel with
      | none => none
      | some chunks =>
        some (.ok (chunks.enum.map
          (fun p => ⟨p.2, p.1, chunks.length⟩)))

end Rag

/-! ## `app/rag/query_engine.py` — `_retrieve_context` -/

namespace Query

/-- `DEFAULT_TOP_K`. -/
def DEFAULT_TOP_K : Nat := 5

/-- `DEFAULT_SIMILARITY_THRESHOLD` (the float `0.7`, as a rational). -/
def DEFAULT_SIMILARITY_THRESHOLD : ℚ := 7 / 10

/-- A retrieved node with its similarity score (scores are only ever
compared, so `ℚ` stands in for the float). -/
structure ScoredNode where
  id : Nat
  score : ℚ
  deriving DecidableEq, Repr

/-- `RAGQueryEngine._retrieve_context(query_text)`: the tenant-filtered
retriever (external: `vector_store_manager.get_retriever(tenant_id,
similarity_top_k=top_k)` followed by `retrieve`) either raises or returns
a candidate list; a raise degrades to `[]` (with a logged warning),
otherwise the candidates are filtered by
`node.score >= similarity_threshold`. -/
def retrieve_context (similarity_threshold : ℚ)
    (retrieval : Except Unit (List ScoredNode)) : List ScoredNode :=
  match retrieval with
  | .error _ => []
  | .ok nodes => nodes.filter (fun n => similarity_threshold ≤ n.score)

end Query

/-! ## Theorems -/

section Theorems

open Permissions Tenant Tools Confirm Rag Query

/-- Helper: the minimum-required-role computation indeed picks a member of
the allowed set of lowest hierarchy rank (with `admin` for unknown or
unrestricted tools). -/
lemma min_role_spec (tool_name : String) :
    get_minimum_required_role tool_name ∈ allowedFor tool_name ∧
    ∀ r ∈ allowedFor tool_name,
      ROLE_HIERARCHY (get_minimum_required_role tool_name) ≤
        ROLE_HIERARCHY r := by
  cases h : matrixLookup tool_name with
  | none =>
    simp only [allowedFor, get_minimum_required_role, h, Option.getD_none]
    decide
  | some s =>
    obtain ⟨e, hfind, hsnd⟩ := Option.map_eq_some'.mp h
    have hmem := List.mem_of_find?_eq_some hfind
    have hfst : e.1 = tool_name := by
      have := List.find?_some hfind
      exact of_decide_eq_true this
    simp only [allowedFor, get_minimum_required_role, h, Option.getD_some]
    subst hsnd
    subst hfst
    simp [PERMISSION_MATRIX] at hmem
    rcases hmem with h1 | h1 | h1 | h1 | h1 | h1 <;> rw [h1] <;> decide

/-- C5 — `check_permission(role, action)` raises `PermissionDeniedError`
exactly when `role` is not a recognized `Role` value or `role` is outside
the action's allowed set (an action absent from the matrix being
admin-only); every raised error carries `user_role = role`, and for a
recognized-but-disallowed role it carries `required_role` equal to the
allowed role of lowest hierarchy rank.  The spec's example (clinician ↦
`medico`, operator ↦ `operador`): `medico` invoking
`update_occurrence_status` is denied with `required_role = "operador"`. -/
theorem c5_check_permission_characterization (role tool_name : String) :
    ((∃ e, check_permission role tool_name = .error e) ↔
      (role ∉ ROLE_VALUES ∨ role ∉ allowedFor tool_name))
    ∧ (∀ e, check_permission role tool_name = .error e →
        e.user_role = some role ∧ e.tool_name = some tool_name)
    ∧ (role ∉ ROLE_VALUES →
        check_permission role tool_name =
          .error ⟨none, some role, some tool_name⟩)
    ∧ (role ∈ ROLE_VALUES → role ∉ allowedFor tool_name →
        check_permission role tool_name =
          .error ⟨some (get_minimum_required_role tool_name), some role,
                  some tool_name⟩
        ∧ get_minimum_required_role tool_name ∈ allowedFor tool_name
        ∧ ∀ r ∈ allowedFor tool_name,
            ROLE_HIERARCHY (get_minimum_required_role tool_name) ≤
              ROLE_HIERARCHY r)
    ∧ (matrixLookup tool_name = none → allowedFor tool_name = ["admin"])
    ∧ check_permission "medico" "update_occurrence_status" =
        .error ⟨some "operador", some "medico",
                some "update_occurrence_status"⟩ := by
  refine ⟨?_, ?_, ?_, ?_, ?_, by decide⟩
  · by_cases h1 : role ∈ ROLE_VALUES <;>
      by_cases h2 : role ∈ allowedFor tool_name <;>
      simp [check_permission, h1, h2]
  · intro e he
    by_cases h1 : role ∈ ROLE_VALUES <;>
      by_cases h2 : role ∈ allowedFor tool_name <;>
      simp [check_permission, h1, h2] at he <;>
      simp [← he]
  · intro h1
    simp [check_permission, h1]
  · intro h1 h2
    exact ⟨by simp [check_permission, h1, h2],
           (min_role_spec tool_name).1, (min_role_spec tool_name).2⟩
  · intro h
    simp [allowedFor, h]

/-- C5 witness: instantiation at `role = "medico"`,
`tool_name = "update_occurrence_status"` — the denial hypotheses hold and
the reported `required_role` is `operador`. -/
theorem c5_witness :
    "medico" ∈ ROLE_VALUES ∧
    "medico" ∉ allowedFor "update_occurrence_status" ∧
    check_permission "medico" "update_occurrence_status" =
      .error ⟨some "operador", some "medico",
              some "update_occurrence_status"⟩ :=
  ⟨by decide, by decide,
    ((c5_check_permission_characterization "medico"
      "update_occurrence_status").2.2.2.1 (by decide) (by decide)).1⟩

/-- C4 — `create_tenant_context`: a returned context always carries the
caller's assigned tenant as `tenant_id`, and its `effective_tenant_id`
equals the assigned tenant unless the caller is a super-admin who supplied
a (nonempty) override header, in which case it equals the override.  A
non-super-admin supplying an override fails closed with the denial error.
(The code tests the header by Python truthiness, so an empty-string header
counts as no override supplied.) -/
theorem c4_tenant_context_invariant (validate_uuid : String → Bool)
    (user_claims : UserClaims) (header_tenant_id : Option String) :
    (∀ ctx,
      create_tenant_context validate_uuid user_claims header_tenant_id =
        .ok ctx →
      ctx.tenant_id = user_claims.tenant_id ∧
      ctx.is_super_admin = user_claims.is_super_admin ∧
      (ctx.effective_tenant_id = user_claims.tenant_id ∨
        (user_claims.is_super_admin = true ∧
         header_tenant_id = some ctx.effective_tenant_id ∧
         ctx.effective_tenant_id ≠ "")))
    ∧ (∀ s, header_tenant_id = some s → s ≠ "" →
        user_claims.is_super_admin = false →
        create_tenant_context validate_uuid user_claims header_tenant_id =
          .error .denied)
    ∧ (∀ s, header_tenant_id = some s → s ≠ "" →
        user_claims.is_super_admin = true → validate_uuid s = true →
        create_tenant_context validate_uuid user_claims header_tenant_id =
          .ok ⟨user_claims.tenant_id, true, s⟩) := by
  refine ⟨?_, ?_, ?_⟩
  · intro ctx hctx
    cases hh : header_tenant_id with
    | none =>
      subst hh
      simp [create_tenant_context, headerTruthy] at hctx
      simp [← hctx]
    | some s =>
      subst hh
      by_cases hs : s = ""
      · subst hs
        simp [create_tenant_context, headerTruthy] at hctx
        simp [← hctx]
      · by_cases hsa : user_claims.is_super_admin <;>
          by_cases hv : validate_uuid s <;>
          simp [create_tenant_context, headerTruthy, hs, hsa, hv] at hctx
        simp [← hctx, hsa, hs]
  · intro s hh hs hsa
    subst hh
    simp [create_tenant_context, headerTruthy, hs, hsa]
  · intro s hh hs hsa hv
    subst hh
    simp [create_tenant_context, headerTruthy, hs, hsa, hv]

/-- C4 witness: a non-super-admin (`medico` of tenant `tenant-a`)
supplying the override header `tenant-b` is denied. -/
theorem c4_witness :
    (some "tenant-b" = some "tenant-b") ∧ ("tenant-b" ≠ "") ∧
    create_tenant_context (fun _ => true)
      ⟨"u1", "u1@x", "medico", "tenant-a", false⟩ (some "tenant-b") =
      .error .denied :=
  ⟨rfl, by decide,
    (c4_tenant_context_invariant (fun _ => true)
      ⟨"u1", "u1@x", "medico", "tenant-a", false⟩ (some "tenant-b")).2.1
      "tenant-b" rfl (by decide) rfl⟩

/-- C7 — `_retrieve_context`: given the retriever contract (at most
`top_k` candidates, ranked by descending score), the returned list
contains only candidates clearing `similarity_threshold`, has at most
`top_k` elements, stays ranked descending, is a sublist of the candidate
list, is empty when no candidate clears the threshold (a normal return,
not an error), and a raised retrieval failure degrades to the empty list.
The defaults are `0.7` and `5`. -/
theorem c7_retrieve_context_threshold (similarity_threshold : ℚ)
    (top_k : Nat) (retrieval : Except Unit (List ScoredNode))
    (hlen : ∀ ns, retrieval = .ok ns → ns.length ≤ top_k)
    (hrank : ∀ ns, retrieval = .ok ns →
      ns.Pairwise (fun a b => b.score ≤ a.score)) :
    (∀ n ∈ retrieve_context similarity_threshold retrieval,
        similarity_threshold ≤ n.score)
    ∧ (retrieve_context similarity_threshold retrieval).length ≤ top_k
    ∧ (retrieve_context similarity_threshold retrieval).Pairwise
        (fun a b => b.score ≤ a.score)
    ∧ (∀ ns, retrieval = .ok ns →
        List.Sublist (retrieve_context similarity_threshold retrieval) ns)
    ∧ (∀ ns, retrieval = .ok ns →
        (∀ n ∈ ns, n.score < similarity_threshold) →
        retrieve_context similarity_threshold retrieval = [])
    ∧ (retrieval = .error () →
        retrieve_context similarity_threshold retrieval = [])
    ∧ DEFAULT_SIMILARITY_THRESHOLD = 7 / 10 ∧ DEFAULT_TOP_K = 5 := by
  cases retrieval with
  | error e =>
    refine ⟨?_, ?_, ?_, ?_, ?_, ?_, rfl, rfl⟩ <;>
      simp [retrieve_context]
  | ok ns =>
    refine ⟨?_, ?_, ?_, ?_, ?_, ?_, rfl, rfl⟩
    · intro n hn
      simp [retrieve_context, List.mem_filter] at hn
      exact hn.2
    · calc (retrieve_context similarity_threshold (.ok ns)).length
          ≤ ns.length := List.length_filter_le _ ns
        _ ≤ top_k := hlen ns rfl
    · exact (hrank ns rfl).sublist (List.filter_sublist ns)
    · intro ms hms
      cases hms
      exact List.filter_sublist ns
    · intro ms hms hbelow
      cases hms
      simp only [retrieve_context]
      rw [List.filter_eq_nil_iff]
      intro a ha
      simp only [decide_eq_true_eq]
      exact not_le.mpr (hbelow a ha)
    · intro h
      cases h

/-- C7 witness: two candidates with scores `9/10` and `1/2` against the
default threshold `7/10` — the retriever contract holds and only the
first candidate survives the filter. -/
theorem c7_witness :
    ([(⟨1, 9/10⟩ : ScoredNode), ⟨2, 1/2⟩].length ≤ 5) ∧
    (∀ n ∈ retrieve_context (7/10)
        (.ok [(⟨1, 9/10⟩ : ScoredNode), ⟨2, 1/2⟩]), (7:ℚ)/10 ≤ n.score) :=
  ⟨by simp,
    (c7_retrieve_context_threshold (7/10) 5
      (.ok [(⟨1, 9/10⟩ : ScoredNode), ⟨2, 1/2⟩])
      (by intro ns hns; cases hns; simp)
      (by intro ns hns; cases hns; norm_num [List.pairwise_cons])).1⟩

/-- C10 — `create_nodes_from_text` returns `[]` for empty or
whitespace-only content before the required-metadata validation runs, so
missing mandatory metadata keys pass silently on such input; conversely a
validation error can only arise from content that is non-empty after
trimming. -/
theorem c10_empty_content_skips_validation (chunk_size overlap fuel : Nat)
    (content : Str) (metadataKeys : List String) :
    (strip content = [] →
      create_nodes_from_text chunk_size overlap fuel content metadataKeys =
        some (.ok []))
    ∧ (∀ e, create_nodes_from_text chunk_size overlap fuel content
          metadataKeys = some (.error e) →
        strip content ≠ []) := by
  constructor
  · intro h
    simp [create_nodes_from_text, h]
  · intro e he hs
    rw [(by simp [create_nodes_from_text, hs] :
      create_nodes_from_text chunk_size overlap fuel content metadataKeys =
        some (.ok []))] at he
    cases he

/-- C10 witness: whitespace-only content with every required metadata key
missing still yields `ok []`. -/
theorem c10_witness :
    strip ("   ".toList) = [] ∧
    create_nodes_from_text 512 50 1000 ("   ".toList) [] =
      some (.ok []) :=
  ⟨by decide,
    (c10_empty_content_skips_validation 512 50 1000 ("   ".toList) []).1
      (by decide)⟩

/-- Helper for C9: on `text = "aaaaaaaaaa"`, `chunk_size = 5`,
`overlap = 5`, every loop pass re-enters with `start = 0` (the window ends
at 5, the chunk `"aaaaa"` is emitted, and `start = 5 - 5 = 0 < 10`), so no
iteration budget suffices. -/
lemma c9_loop_stuck_at_zero :
    ∀ (fuel : Nat) (acc : List Str),
      chunkLoopWith find_sentence_boundary 5 5 (List.replicate 10 'a')
        fuel 0 acc = none := by
  intro fuel
  induction fuel with
  | zero => intro acc; rfl
  | succ n ih =>
    intro acc
    have hstep :
        chunkLoopWith find_sentence_boundary 5 5 (List.replicate 10 'a')
          (n + 1) 0 acc =
        chunkLoopWith find_sentence_boundary 5 5 (List.replicate 10 'a')
          n 0 (acc ++ [List.replicate 5 'a']) := rfl
    rw [hstep]
    exact ih (acc ++ [List.replicate 5 'a'])

/-- C9 — the degenerate case `overlap ≥ max_size` is NOT guarded against:
on the ten-character text `aaaaaaaaaa` with `chunk_size = 5` and
`overlap = 5` the `while` loop of `_chunk_text` never terminates (each
pass recomputes `start = 0`), witnessed here by the loop exhausting every
finite iteration budget. -/
theorem c9_chunk_text_nonterminating_on_overlap_eq_size :
    ∀ fuel : Nat,
      chunk_text 5 5 (List.replicate 10 'a') fuel = none := by
  intro fuel
  have h := c9_loop_stuck_at_zero fuel []
  simp only [chunk_text]
  rw [(by decide : strip (List.replicate 10 'a') = List.replicate 10 'a')]
  rw [if_neg (by decide : ¬ (List.replicate 10 'a').length ≤ 5)]
  rw [h]

/-- C8 counterexample: on `"ab.cd!ghijklmnopqrst"` with `max_size = 10`,
`overlap = 0`, the source pulls the first window's edge back to just after
the last `.` (position 2), although the nearest preceding sentence marker
inside the window is the `!` at position 5 — so the produced chunks differ
from the nearest-boundary reading of the spec. -/
theorem c8_counterexample :
    chunk_text 10 0 ("ab.cd!ghijklmnopqrst".toList) 30 =
      some ["ab.".toList, "cd!ghijklm".toList, "nopqrst".toList]
    ∧ chunk_text_claim 10 0 ("ab.cd!ghijklmnopqrst".toList) 30 =
      some ["ab.cd!".toList, "ghijklmnop".toList, "qrst".toList]
    ∧ chunk_text 10 0 ("ab.cd!ghijklmnopqrst".toList) 30 ≠
      chunk_text_claim 10 0 ("ab.cd!ghijklmnopqrst".toList) 30 := by
  refine ⟨by decide, by decide, by decide⟩

/-- Helper for C8: `rfind` misses exactly when the character does not
occur. -/
lemma rfindChar_eq_none_iff (s : Str) (c : Char) :
    rfindChar s c = none ↔ s.contains c = false := by
  induction s with
  | nil => simp [rfindChar]
  | cons a rest ih =>
    simp only [rfindChar, List.contains_cons]
    cases h : rfindChar rest c with
    | some p =>
      have hmem : rest.contains c = true := by
        cases hh : rest.contains c
        · exact absurd (ih.mpr hh) (by simp [h])
        · rfl
      simp [hmem]
      intro _
      simpa using hmem
    | none =>
      have hnc : rest.contains c = false := ih.mp h
      by_cases hac : a = c
      · simp [hac, hnc]
      · have : (c == a) = false := by
          simp [hac]
          intro hca
          exact hac hca.symm
        simp [hac, hnc, this]
        simpa using hnc

/-- Helper for C8: the marker-by-marker `rfind` cascade of the source
equals the amended description "last occurrence of the first marker, in
priority order, that occurs at all". -/
lemma rfindFirst_eq_priorityLastHit (s : Str) (ms : List Char) :
    rfindFirst s ms = priorityLastHit s ms := by
  induction ms with
  | nil => rfl
  | cons m ms ih =>
    simp only [rfindFirst, priorityLastHit, List.find?_cons]
    cases hc : s.contains m with
    | true =>
      simp only [Option.some_bind]
      cases hr : rfindChar s m with
      | some p => rfl
      | none =>
        rw [rfindChar_eq_none_iff] at hr
        rw [hr] at hc
        cases hc
    | false =>
      have hr : rfindChar s m = none := (rfindChar_eq_none_iff s m).mpr hc
      rw [hr]
      exact ih

/-- Helper for C8: the two boundary functions agree. -/
lemma find_sentence_boundary_eq_amended :
    find_sentence_boundary = find_boundary_amended := by
  funext text position
  show
    (match rfindFirst (slice text (position - 100) position)
        ['.', '!', '?', '\n'] with
     | some last_pos => position - 100 + last_pos + 1
     | none =>
       match rfindFirst (slice text (position - 100) position)
           [',', ';', ':'] with
       | some last_pos => position - 100 + last_pos + 1
       | none =>
         match rfindChar (slice text (position - 100) position) ' ' with
         | some last_space => position - 100 + last_space + 1
         | none => position) =
    (match priorityLastHit (slice text (position - 100) position)
        ['.', '!', '?', '\n'] with
     | some last_pos => position - 100 + last_pos + 1
     | none =>
       match priorityLastHit (slice text (position - 100) position)
           [',', ';', ':'] with
       | some last_pos => position - 100 + last_pos + 1
       | none =>
         match rfindChar (slice text (position - 100) position) ' ' with
         | some last_space => position - 100 + last_space + 1
         | none => position)
  rw [rfindFirst_eq_priorityLastHit, rfindFirst_eq_priorityLastHit]

/-- C8 amended — chunking behaves exactly as the claim describes except
for the boundary-selection rule: within each tier the markers are tried in
priority order (`.` before `!` before `?` before newline; `,` before `;`
before `:`), the winner being the last occurrence of the first marker that
occurs anywhere in the 100-character lookback — not the nearest preceding
occurrence of any marker of the tier.  All the rest (single trimmed chunk
for short text, window of `max_size`, pullback only when it lands after
the window start, next window at `end - overlap` clamped to ≥ 0, chunks
trimmed, empty chunks dropped) is as claimed, expressed by full
behavioural equality with the amended reference definition. -/
theorem c8_chunking_amended (chunk_size overlap : Nat) (text0 : Str)
    (fuel : Nat) :
    chunk_text chunk_size overlap text0 fuel =
      chunk_text_amended chunk_size overlap text0 fuel := by
  rw [chunk_text, chunk_text_amended, find_sentence_boundary_eq_amended]

/-- C1 — for a tool with `requires_confirmation = true` and a context
whose confirmation flag is not set, `run` never enters `execute()` (for
any parameters and any behaviour of `execute`); whenever it returns a
result (rather than re-raising a permission denial) that result is a
success with `confirmation_required = true` carrying the freshly drawn
action id, the generator advances past it, and a further confirmation
request served from the advanced generator receives a different id —
so ids are previously unseen across calls. -/
theorem c1_confirmation_gate (tool : ToolSpec) (context : ToolContext)
    (params : Dict) (execute : ExecOutcome) (confMessage : String)
    (confExtra : Dict) (elapsedMs gen : Nat)
    (hreq : tool.requires_confirmation = true)
    (hconf : context.confirmation_received = false) :
    (run tool context params execute confMessage confExtra elapsedMs
        gen).execCalled = false
    ∧ (∀ r,
        (run tool context params execute confMessage confExtra elapsedMs
          gen).result = .ok r →
        r.success = true ∧ r.confirmation_required = true ∧
        r.confirmation_action_id = some gen ∧
        (run tool context params execute confMessage confExtra elapsedMs
          gen).genOut = gen + 1)
    ∧ (∀ r tool2 context2 params2 execute2 confMessage2 confExtra2
          elapsedMs2 r2,
        (run tool context params execute confMessage confExtra elapsedMs
          gen).result = .ok r →
        tool2.requires_confirmation = true →
        context2.confirmation_received = false →
        (run tool2 context2 params2 execute2 confMessage2 confExtra2
          elapsedMs2
          (run tool context params execute confMessage confExtra elapsedMs
            gen).genOut).result = .ok r2 →
        r2.confirmation_action_id ≠ r.confirmation_action_id) := by
  cases hp : check_permission context.role tool.name with
  | error e =>
    refine ⟨by simp [run, hp], by simp [run, hp], ?_⟩
    intro r tool2 context2 params2 execute2 cm2 ce2 el2 r2 hr
    simp [run, hp] at hr
  | ok u =>
    cases u
    have hgate : tool.requires_confirmation = true ∧
        ¬ context.confirmation_received = true := by
      simp [hreq, hconf]
    refine ⟨by simp [run, hp, hgate], ?_, ?_⟩
    · intro r hr
      simp [run, hp, hgate] at hr
      simp [← hr, request_confirmation, run, hp, hgate]
    · intro r tool2 context2 params2 execute2 cm2 ce2 el2 r2 hr h2req
        h2conf hr2
      simp [run, hp, hgate] at hr
      have hgen : (run tool context params execute confMessage confExtra
          elapsedMs gen).genOut = gen + 1 := by
        simp [run, hp, hgate]
      rw [hgen] at hr2
      cases hp2 : check_permission context2.role tool2.name with
      | error e2 => simp [run, hp2] at hr2
      | ok u2 =>
        cases u2
        have hgate2 : tool2.requires_confirmation = true ∧
            ¬ context2.confirmation_received = true := by
          simp [h2req, h2conf]
        simp [run, hp2, hgate2] at hr2
        simp [← hr2, ← hr, request_confirmation]

/-- C1 witness: the `update_occurrence_status`-style tool with
`requires_confirmation = true`, called by an `operador` (permission
granted) with the confirmation flag down: `execute()` is not entered. -/
theorem c1_witness :
    (⟨"update_occurrence_status", true⟩ : ToolSpec).requires_confirmation
      = true
    ∧ (⟨"u1", "t1", "operador", false⟩ :
        ToolContext).confirmation_received = false
    ∧ (run ⟨"update_occurrence_status", true⟩
        ⟨"u1", "t1", "operador", false⟩ [] (.unexpected "boom") "m" [] 3
        0).execCalled = false :=
  ⟨rfl, rfl,
    (c1_confirmation_gate ⟨"update_occurrence_status", true⟩
      ⟨"u1", "t1", "operador", false⟩ [] (.unexpected "boom") "m" [] 3 0
      rfl rfl).1⟩

/-- C6 — once permission is granted and the confirmation gate is
satisfied (or not required), `run` returns rather than raises: a domain
`ToolError` from `execute()` becomes a `success = false` result with the
error code in `data`, any other exception becomes the generic
`success = false` result, a normal result is passed through (with the
elapsed time attached), and the only way an exception escapes `run` is a
permission denial re-raised from `execute()` itself. -/
theorem c6_run_error_containment (tool : ToolSpec) (context : ToolContext)
    (params : Dict) (execute : ExecOutcome) (confMessage : String)
    (confExtra : Dict) (elapsedMs gen : Nat)
    (hperm : check_permission context.role tool.name = .ok ())
    (hgate : tool.requires_confirmation = false ∨
      context.confirmation_received = true) :
    (∀ msg code details, execute = .toolError msg code details →
      (run tool context params execute confMessage confExtra elapsedMs
        gen).result =
      .ok { success := false
            data := some (("error_code", code) :: details)
            message := some msg
            execution_time_ms := some elapsedMs })
    ∧ (∀ msg, execute = .unexpected msg →
      (run tool context params execute confMessage confExtra elapsedMs
        gen).result =
      .ok { success := false
            data := some [("error", msg)]
            message := some
              "An unexpected error occurred while executing the tool."
            execution_time_ms := some elapsedMs })
    ∧ (∀ r, execute = .ok r →
      (run tool context params execute confMessage confExtra elapsedMs
        gen).result = .ok { r with execution_time_ms := some elapsedMs })
    ∧ (∀ f,
      (run tool context params execute confMessage confExtra elapsedMs
        gen).result = .error f →
      ∃ rr ur tn, execute = .permError rr ur tn) := by
  have hg : ¬ (tool.requires_confirmation = true ∧
      context.confirmation_received = false) := by
    rcases hgate with h | h <;> simp [h]
  refine ⟨?_, ?_, ?_, ?_⟩
  · intro msg code details he
    subst he
    simp [run, hperm, hg]
  · intro msg he
    subst he
    simp [run, hperm, hg]
  · intro r he
    subst he
    simp [run, hperm, hg]
  · intro f hf
    cases execute with
    | ok r => simp [run, hperm, hg] at hf
    | permError rr ur tn => exact ⟨rr, ur, tn, rfl⟩
    | toolError m c d => simp [run, hperm, hg] at hf
    | unexpected m => simp [run, hperm, hg] at hf

/-- C6 witness: an `admin` running `generate_report` (no confirmation
required) whose `execute()` raises a domain `ToolError` gets a
`success = false` result with the error code in `data`. -/
theorem c6_witness :
    check_permission "admin" "generate_report" = .ok ()
    ∧ (run ⟨"generate_report", false⟩ ⟨"u1", "t1", "admin", true⟩ []
        (.toolError "backend down" "BACKEND_CONNECTION_ERROR" []) "m" []
        7 0).result =
      .ok { success := false
            data := some [("error_code", "BACKEND_CONNECTION_ERROR")]
            message := some "backend down"
            execution_time_ms := some 7 } :=
  ⟨by decide,
    (c6_run_error_containment ⟨"generate_report", false⟩
      ⟨"u1", "t1", "admin", true⟩ []
      (.toolError "backend down" "BACKEND_CONNECTION_ERROR" []) "m" [] 7 0
      (by decide) (.inl rfl)).1 "backend down" "BACKEND_CONNECTION_ERROR"
      [] rfl⟩

/-- Helper: rows of a table with pairwise-distinct primary keys are
determined by their key. -/
lemma ids_unique {l : List AuditRecord}
    (hp : l.Pairwise (fun a b => a.id ≠ b.id)) :
    ∀ a ∈ l, ∀ b ∈ l, a.id = b.id → a = b := by
  intro a ha b hb hab
  by_contra hne
  exact List.Pairwise.forall (fun x y h => Ne.symm h) hp ha hb hne hab

/-- Helper: what a successful `get_by_id` lookup guarantees. -/
lemma getById_some_elim {st : Store} {id t : Nat} {r : AuditRecord}
    (h : getById st id t = some r) :
    r ∈ st.recs ∧ r.id = id ∧ r.tenant_id = t := by
  refine ⟨List.mem_of_find?_eq_some h, ?_⟩
  have := List.find?_some h
  simpa using this

/-- Helper: with unique keys, `get_by_id` finds exactly the row with the
requested key when its tenant matches the filter. -/
lemma getById_eq_some {st : Store} {id t : Nat} {pa : AuditRecord}
    (hp : st.recs.Pairwise (fun a b => a.id ≠ b.id))
    (hmem : pa ∈ st.recs) (hid : pa.id = id) (ht : pa.tenant_id = t) :
    getById st id t = some pa := by
  cases h : getById st id t with
  | none =>
    have hnone := List.find?_eq_none.mp h pa hmem
    simp [hid, ht] at hnone
  | some r =>
    obtain ⟨hrmem, hrid, hrt⟩ := getById_some_elim h
    have : r = pa := ids_unique hp r hrmem pa hmem (by rw [hrid, hid])
    rw [this]

/-- Helper: with unique keys, a tenant filter that does not match the
row's tenant makes the lookup miss. -/
lemma getById_none_of_other_tenant {st : Store} {id t : Nat}
    {pa : AuditRecord}
    (hp : st.recs.Pairwise (fun a b => a.id ≠ b.id))
    (hmem : pa ∈ st.recs) (hid : pa.id = id) (ht : pa.tenant_id ≠ t) :
    getById st id t = none := by
  cases h : getById st id t with
  | none => rfl
  | some r =>
    obtain ⟨hrmem, hrid, hrt⟩ := getById_some_elim h
    have hrpa : r = pa := ids_unique hp r hrmem pa hmem (by rw [hrid, hid])
    exact absurd (hrpa ▸ hrt) ht

/-- Helper: equation for `confirm_action` when the lookup misses. -/
lemma confirm_action_none_eq {st : Store} {gen action_id : Nat}
    {confirmed : Bool} {ctx : ReqCtx}
    {ex : Except String (List (String × String))}
    (h : getById st action_id ctx.tenant_id = none) :
    confirm_action st gen action_id confirmed ctx ex =
      ⟨.error .notFound, st, gen, false⟩ := by
  simp [confirm_action, h]

/-- Helper: equation for `confirm_action` when the row is not pending. -/
lemma confirm_action_notPending_eq {st : Store} {gen action_id : Nat}
    {confirmed : Bool} {ctx : ReqCtx}
    {ex : Except String (List (String × String))} {pa : AuditRecord}
    (h : getById st action_id ctx.tenant_id = some pa)
    (hs : pa.status ≠ .pending) :
    confirm_action st gen action_id confirmed ctx ex =
      ⟨.error .notPending, st, gen, false⟩ := by
  simp [confirm_action, h, hs]

/-- Helper: equation for `confirm_action` when the caller is not the
owner of the pending row. -/
lemma confirm_action_unauthorized_eq {st : Store} {gen action_id : Nat}
    {confirmed : Bool} {ctx : ReqCtx}
    {ex : Except String (List (String × String))} {pa : AuditRecord}
    (h : getById st action_id ctx.tenant_id = some pa)
    (hs : pa.status = .pending) (hu : pa.user_id ≠ ctx.user_id) :
    confirm_action st gen action_id confirmed ctx ex =
      ⟨.error .unauthorized, st, gen, false⟩ := by
  simp [confirm_action, h, hs, hu]

/-- Helper: equation for `confirm_action` on a confirmed pending row with
a successful execution. -/
lemma confirm_action_exec_ok_eq {st : Store} {gen action_id : Nat}
    {ctx : ReqCtx} {res : List (String × String)} {pa : AuditRecord}
    (h : getById st action_id ctx.tenant_id = some pa)
    (hs : pa.status = .pending) (hu : pa.user_id = ctx.user_id) :
    confirm_action st gen action_id true ctx (.ok res) =
      ⟨.ok ⟨action_id, true, some res, "Acao executada com sucesso"⟩,
       updateStatus
         ⟨st.recs ++ [confLogRecord gen ctx.tenant_id ctx.user_id
           pa.conversation_id pa.tool_name pa.input_params true]⟩
         action_id ctx.tenant_id .success (some res) none,
       gen + 1, true⟩ := by
  simp [confirm_action, h, hs, hu, createConfirmationLog]

/-- Helper: equation for `confirm_action` on a confirmed pending row
whose execution raises. -/
lemma confirm_action_exec_err_eq {st : Store} {gen action_id : Nat}
    {ctx : ReqCtx} {e : String} {pa : AuditRecord}
    (h : getById st action_id ctx.tenant_id = some pa)
    (hs : pa.status = .pending) (hu : pa.user_id = ctx.user_id) :
    confirm_action st gen action_id true ctx (.error e) =
      ⟨.ok ⟨action_id, true, none, "Erro ao executar acao: " ++ e⟩,
       updateStatus
         ⟨st.recs ++ [confLogRecord gen ctx.tenant_id ctx.user_id
           pa.conversation_id pa.tool_name pa.input_params true]⟩
         action_id ctx.tenant_id .failed none (some e),
       gen + 1, true⟩ := by
  simp [confirm_action, h, hs, hu, createConfirmationLog]

/-- Helper: equation for `confirm_action` on a cancelled pending row. -/
lemma confirm_action_cancel_eq {st : Store} {gen action_id : Nat}
    {ctx : ReqCtx} {ex : Except String (List (String × String))}
    {pa : AuditRecord}
    (h : getById st action_id ctx.tenant_id = some pa)
    (hs : pa.status = .pending) (hu : pa.user_id = ctx.user_id) :
    confirm_action st gen action_id false ctx ex =
      ⟨.ok ⟨action_id, false, none, "Acao cancelada"⟩,
       updateStatus
         ⟨st.recs ++ [confLogRecord gen ctx.tenant_id ctx.user_id
           pa.conversation_id pa.tool_name pa.input_params false]⟩
         action_id ctx.tenant_id .cancelled none none,
       gen + 1, false⟩ := by
  simp [confirm_action, h, hs, hu, createConfirmationLog]

/-- Helper: in the updated-and-extended table produced by an executing
confirm, every row carrying the confirmed action id is resolved. -/
lemma updated_rows_resolved {st : Store} {gen action_id : Nat}
    {ctx : ReqCtx} {pa : AuditRecord} {logc : Bool}
    (hwf : WFStore st gen)
    (hpamem : pa ∈ st.recs) (hpaid : pa.id = action_id)
    (hpat : pa.tenant_id = ctx.tenant_id)
    (newStat : ActionStatus) (o : Option (List (String × String)))
    (e : Option String) (hns : newStat ≠ .pending) :
    ∀ (t₂ : Nat) (r : AuditRecord),
      getById
        (updateStatus
          ⟨st.recs ++ [confLogRecord gen ctx.tenant_id ctx.user_id
            pa.conversation_id pa.tool_name pa.input_params logc]⟩
          action_id ctx.tenant_id newStat o e)
        action_id t₂ = some r →
      r.status ≠ .pending := by
  have hfresh : action_id < gen := hpaid ▸ hwf.1 pa hpamem
  intro t₂ r hr
  obtain ⟨hrmem, hrid, hrt⟩ := getById_some_elim hr
  simp only [updateStatus, List.map_append, List.mem_append,
    List.map_cons, List.map_nil, List.mem_singleton,
    List.mem_map] at hrmem
  rcases hrmem with ⟨r0, hr0mem, hr0eq⟩ | hlog
  · by_cases hcond : r0.id = action_id ∧ r0.tenant_id = ctx.tenant_id
    · rw [← hr0eq]
      simp [applyStatusUpdate, hcond, hns]
    · have hr0r : applyStatusUpdate action_id ctx.tenant_id newStat o e
          r0 = r0 := by
        simp [applyStatusUpdate, hcond]
      rw [hr0r] at hr0eq
      subst hr0eq
      exact absurd ⟨hrid,
        (ids_unique hwf.2 r0 hr0mem pa hpamem
          (hrid.trans hpaid.symm)) ▸ hpat⟩ hcond
  · have hgne : ¬ ((confLogRecord gen ctx.tenant_id ctx.user_id
        pa.conversation_id pa.tool_name pa.input_params logc).id =
          action_id ∧
        (confLogRecord gen ctx.tenant_id ctx.user_id
        pa.conversation_id pa.tool_name pa.input_params
        logc).tenant_id = ctx.tenant_id) := by
      simp only [confLogRecord, not_and]
      intro hg
      exact absurd hg (Nat.ne_of_gt hfresh)
    have hupd : applyStatusUpdate action_id ctx.tenant_id newStat o e
        (confLogRecord gen ctx.tenant_id ctx.user_id pa.conversation_id
          pa.tool_name pa.input_params logc) =
        confLogRecord gen ctx.tenant_id ctx.user_id pa.conversation_id
          pa.tool_name pa.input_params logc := by
      simp [applyStatusUpdate, hgne]
    rw [hupd] at hlog
    have hlid : r.id = gen := by rw [hlog]; rfl
    rw [hlid] at hrid
    exact absurd hrid (Nat.ne_of_gt hfresh)

/-- Helper: after a `confirm_action` call that entered
`_execute_confirmed_action`, no lookup of the same action id (under any
tenant filter) can see a `pending` row: the targeted row was updated to
`SUCCESS` or `FAILED`, and the appended confirmation row has a fresh key. -/
lemma confirm_exec_resolves (st : Store) (gen action_id : Nat)
    (confirmed : Bool) (ctx : ReqCtx)
    (ex : Except String (List (String × String)))
    (hwf : WFStore st gen)
    (hexec :
      (confirm_action st gen action_id confirmed ctx ex).executed = true) :
    ∀ (t₂ : Nat) (r : AuditRecord),
      getById (confirm_action st gen action_id confirmed ctx ex).store
        action_id t₂ = some r →
      r.status ≠ .pending := by
  cases hget : getById st action_id ctx.tenant_id with
  | none =>
    rw [confirm_action_none_eq hget] at hexec
    cases hexec
  | some pa =>
    obtain ⟨hpamem, hpaid, hpat⟩ := getById_some_elim hget
    by_cases hstat : pa.status = ActionStatus.pending
    case neg =>
      rw [confirm_action_notPending_eq hget hstat] at hexec
      cases hexec
    case pos =>
      by_cases huser : pa.user_id = ctx.user_id
      case neg =>
        rw [confirm_action_unauthorized_eq hget hstat huser] at hexec
        cases hexec
      case pos =>
        cases confirmed with
        | false =>
          rw [confirm_action_cancel_eq hget hstat huser] at hexec
          cases hexec
        | true =>
          cases ex with
          | ok res =>
            rw [confirm_action_exec_ok_eq hget hstat huser]
            exact updated_rows_resolved hwf hpamem hpaid hpat
              .success (some res) none (by decide)
          | error e =>
            rw [confirm_action_exec_err_eq hget hstat huser]
            exact updated_rows_resolved hwf hpamem hpaid hpat
              .failed none (some e) (by decide)

/-- Helper: a `confirm_action` call that cannot find a `pending` row for
the action id does not execute anything. -/
lemma nonpending_no_exec (st : Store) (gen action_id : Nat)
    (confirmed : Bool) (ctx : ReqCtx)
    (ex : Except String (List (String × String)))
    (h : ∀ r, getById st action_id ctx.tenant_id = some r →
      r.status ≠ .pending) :
    (confirm_action st gen action_id confirmed ctx ex).executed = false := by
  simp only [confirm_action]
  cases hget : getById st action_id ctx.tenant_id with
  | none => rfl
  | some r =>
    have := h r hget
    simp [this]

/-- C2 — `confirm_action` error taxonomy and idempotency: an unknown
action id fails with the distinct `action_not_found` error; an existing
action whose status is no longer `pending` fails with the distinct
`action_not_pending` ("already resolved") error; and across two
sequential confirm attempts on the same action id the underlying tool
execution is entered at most once in total. -/
theorem c2_confirm_idempotency (st : Store) (gen action_id : Nat)
    (ctx₁ ctx₂ : ReqCtx) (confirmed₁ confirmed₂ : Bool)
    (ex₁ ex₂ : Except String (List (String × String)))
    (hwf : WFStore st gen) :
    (getById st action_id ctx₁.tenant_id = none →
      (confirm_action st gen action_id confirmed₁ ctx₁ ex₁).result =
        .error .notFound)
    ∧ (∀ pa, getById st action_id ctx₁.tenant_id = some pa →
        pa.status ≠ .pending →
        (confirm_action st gen action_id confirmed₁ ctx₁ ex₁).result =
          .error .notPending)
    ∧ (ConfirmError.notFound ≠ ConfirmError.notPending)
    ∧ ((confirm_action st gen action_id confirmed₁ ctx₁ ex₁).executed =
        true →
      (confirm_action
        (confirm_action st gen action_id confirmed₁ ctx₁ ex₁).store
        (confirm_action st gen action_id confirmed₁ ctx₁ ex₁).genOut
        action_id confirmed₂ ctx₂ ex₂).executed = false) := by
  refine ⟨?_, ?_, by decide, ?_⟩
  · intro h
    simp [confirm_action, h]
  · intro pa hget hstat
    simp [confirm_action, hget, hstat]
  · intro hexec
    exact nonpending_no_exec _ _ _ _ _ _
      (fun r hr => confirm_exec_resolves st gen action_id confirmed₁ ctx₁
        ex₁ hwf hexec ctx₂.tenant_id r hr)

/-- C2 witness: one pending action (id 1, tenant 10, user 100); the owner
confirms it twice — the second attempt performs no execution. -/
theorem c2_witness :
    WFStore sampleStore 2
    ∧ (confirm_action
        (confirm_action sampleStore 2 1 true ⟨100, 10, "operador"⟩
          (.ok [("status", "executed")])).store
        (confirm_action sampleStore 2 1 true ⟨100, 10, "operador"⟩
          (.ok [("status", "executed")])).genOut
        1 true ⟨100, 10, "operador"⟩
        (.ok [("status", "executed")])).executed = false :=
  ⟨⟨by decide, by decide⟩,
    (c2_confirm_idempotency sampleStore 2 1 ⟨100, 10, "operador"⟩
      ⟨100, 10, "operador"⟩ true true (.ok [("status", "executed")])
      (.ok [("status", "executed")])
      ⟨by decide, by decide⟩).2.2.2 (by decide)⟩

/-- C3 counterexample: `samplePendingAction` (pending, owned by user 100
of tenant 10) and an attempt by user 200 — a different user — made under
tenant context 20: the attempt is rejected with the `action_not_found`
error, not the `unauthorized` one, because the tenant-filtered lookup
misses before the ownership check runs.  So "every user whose user_id
differs is rejected as unauthorized" fails as stated. -/
theorem c3_counterexample :
    samplePendingAction.status = .pending
    ∧ samplePendingAction.user_id ≠ 200
    ∧ (confirm_action sampleStore 2 1 true ⟨200, 20, "admin"⟩
        (.ok [])).result = .error .notFound
    ∧ ConfirmError.notFound ≠ ConfirmError.unauthorized :=
  ⟨rfl, by decide, by decide, by decide⟩

/-- C3 amended — a confirm or cancel attempt on a pending action by any
user other than its creator is rejected without executing anything, for
every role: with the `unauthorized` error when the attempt runs under the
action's tenant context, and with the `not found` error when it runs
under any other tenant context. -/
theorem c3_ownership_amended (st : Store) (gen action_id : Nat)
    (ctx : ReqCtx) (confirmed : Bool)
    (ex : Except String (List (String × String))) (pa : AuditRecord)
    (hp : st.recs.Pairwise (fun a b => a.id ≠ b.id))
    (hmem : pa ∈ st.recs) (hid : pa.id = action_id)
    (hpend : pa.status = .pending) (huser : pa.user_id ≠ ctx.user_id) :
    (ctx.tenant_id = pa.tenant_id →
      (confirm_action st gen action_id confirmed ctx ex).result =
        .error .unauthorized
      ∧ (confirm_action st gen action_id confirmed ctx ex).executed =
        false)
    ∧ (ctx.tenant_id ≠ pa.tenant_id →
      (confirm_action st gen action_id confirmed ctx ex).result =
        .error .notFound
      ∧ (confirm_action st gen action_id confirmed ctx ex).executed =
        false) := by
  constructor
  · intro ht
    have hget := getById_eq_some hp hmem hid ht.symm
    rw [confirm_action_unauthorized_eq hget hpend huser]
    exact ⟨rfl, rfl⟩
  · intro ht
    have hget := getById_none_of_other_tenant hp hmem hid
      (fun h => ht h.symm)
    rw [confirm_action_none_eq hget]
    exact ⟨rfl, rfl⟩

/-- C3 witness: the same foreign user attempting under the action's own
tenant context (10) is rejected as unauthorized — with an `admin` role,
showing role-independence. -/
theorem c3_witness :
    samplePendingAction.user_id ≠ 200 ∧
    (confirm_action sampleStore 2 1 true ⟨200, 10, "admin"⟩
      (.ok [])).result = .error .unauthorized :=
  ⟨by decide,
    ((c3_ownership_amended sampleStore 2 1 ⟨200, 10, "admin"⟩ true
      (.ok []) samplePendingAction (by decide) (by decide) rfl rfl
      (by decide)).1 rfl).1⟩

end Theorems

end VitalConnect
